import Mathlib

/-!
Shallow embedding of `haystack/management/commands/build_solr_schema.py`.

The command generates a Solr schema document and delivers it by exactly one of
three strategies: commit it into the local core directory (with a reload),
write it to a named file, or print it to stdout.  We model the data the
command consumes (the `system_info()` mapping, the CLI options, the connection
URL path, the local fqdn) and the observable actions it performs.

Python error taxonomy used here: `Err.configError` models
`django.core.management.base.CommandError` (the spec calls this class of
failures `ConfigurationError`), `Err.valueError` models an uncaught Python
`ValueError`, `Err.improperlyConfigured` models `ImproperlyConfigured`, and
`Err.ioError` models an `IOError` escaping from file I/O.
-/

namespace BuildSolrSchema

/-- Error outcomes of an invocation, mirroring the exception classes the
Python code can raise. -/
inductive Err where
  | configError (msg : String)
  | valueError
  | improperlyConfigured
  | ioError
deriving DecidableEq, Repr

/-- Model of `solr_info['core']`: the nested dict entries
`['directory']['instance']` and `['host']`; an absent key is `none`. -/
structure CoreInfo where
  instanceDir : Option String
  host : Option String
deriving DecidableEq, Repr

/-- Model of `self.solr_info`: `specVersion` is the nested entry
`['lucene']['solr-spec-version']` (a `KeyError` anywhere on that chain is
modelled by `none`), `core` is the `['core']` entry. -/
structure SolrInfo where
  specVersion : Option String
  core : Option CoreInfo
deriving DecidableEq, Repr

/-- The CLI options read by `handle`: `optparse` leaves an unset string
option as `None` (here `none`) and `store_true` makes `commit` a boolean. -/
structure Opts where
  filename : Option String
  solr_version : Option String
  commit : Bool
deriving DecidableEq, Repr

/-- The version-relevant part of the template `Context` built by
`build_context`: the parsed version list and the `'solr_%s'` shortcut key.
The remaining entries (`solr_info`, fields from `backend.build_schema`,
constants) come from collaborators outside this source file and play no role
in any claim, so they are not carried here. -/
structure RenderContext where
  solr_version : List Int
  version_shortcut : String
deriving DecidableEq, Repr

/-- Observable side effects of an invocation: a file write (via
`write_file`), a core reload (via `SolrCoreAdmin.reload`), or printing the
schema to stdout (via `print_stdout`). -/
inductive Action where
  | fileWrite (path doc : String)
  | reload (core : String)
  | stdoutPrint (doc : String)
deriving DecidableEq, Repr

/-- Environment of one invocation: whether the configured backend is a
`SolrSearchBackend`, the `system_info()` result (`none` models a `SolrError`,
which `handle` turns into an empty dict), the value of `getfqdn()`, the
`path` component of `urlsplit(self.connection.options['URL'])`, and the
(external) template rendering function. -/
structure Env where
  backendIsSolr : Bool
  introspection : Option SolrInfo
  localFqdn : String
  connPath : String
  render : RenderContext → String

/-- `self.solr_info` after the `try/except SolrError` block: the introspected
mapping, or the empty dict `{}` when `system_info()` raised. -/
def initialInfo (env : Env) : SolrInfo :=
  match env.introspection with
  | some i => i
  | none => { specVersion := none, core := none }

/-- Lines 58-61: `if solr_version:` — a supplied, *non-empty* override
string is written into `solr_info['lucene']['solr-spec-version']`; `None`
and the empty string are both falsy and leave the mapping untouched. -/
def applyOverride (info : SolrInfo) (ov : Option String) : SolrInfo :=
  match ov with
  | some s => if s ≠ "" then { info with specVersion := some s } else info
  | none => info

/-- Prepend a character to the first piece of a split result. -/
def consHead (y : Char) : List (List Char) → List (List Char)
  | [] => [[y]]
  | g :: gs => (y :: g) :: gs

/-- Python `str.split(sep)` for a single-character separator: always returns
at least one (possibly empty) piece. -/
def splitChar (c : Char) : List Char → List (List Char)
  | [] => [[]]
  | x :: xs =>
    if x = c then [] :: splitChar c xs
    else consHead x (splitChar c xs)

/-- The whitespace characters stripped by Python `int()` before parsing. -/
def isPySpace (c : Char) : Bool :=
  c == ' ' || c == '\t' || c == '\n' || c == '\r' || c == '\x0b' || c == '\x0c'

/-- Value of a non-empty all-digit string, else `none` (ASCII digits; the
unicode digits Python would also accept never occur in the claims). -/
def digitsVal? (cs : List Char) : Option Nat :=
  if cs.isEmpty then none
  else if cs.all (fun c => c.isDigit) then
    some (cs.foldl (fun a c => 10 * a + (c.toNat - 48)) 0)
  else none

/-- Numeral part of Python `int(s)` after whitespace stripping: an optional
single sign followed by decimal digits. -/
def pyIntCore : List Char → Option Int
  | [] => none
  | h :: rest =>
    if h = '+' then (digitsVal? rest).map (fun n => (n : Int))
    else if h = '-' then (digitsVal? rest).map (fun n => -(n : Int))
    else (digitsVal? (h :: rest)).map (fun n => (n : Int))

/-- Python `int(s)`: strip whitespace, allow one sign, then decimal digits;
`none` models the `ValueError` raised on anything else (e.g. `int('')`). -/
def pyInt? (s : List Char) : Option Int :=
  pyIntCore (((s.dropWhile isPySpace).reverse.dropWhile isPySpace).reverse)

/-- The list comprehension `[int(i) for i in version_str.split('.')]`:
elements are converted left to right and the first failure raises
`ValueError` (modelled by `none`). -/
def parseInts : List (List Char) → Option (List Int)
  | [] => some []
  | p :: ps =>
    match pyInt? p, parseInts ps with
    | some v, some vs => some (v :: vs)
    | _, _ => none

/-- Message of the `CommandError` raised when the version is undeterminable
(also reached through the dead `if not len(...)` guard). -/
def versionMsg : String := "Could not determine Solr version. Use --solr-version."

/-- Message of the `CommandError` raised when the core directory or host is
missing from `solr_info`. -/
def dirMsg : String := "Could not determine core\x27s directory"

/-- Message of the `CommandError` raised on a host mismatch. -/
def mismatchMsg (solrFqdn localFqdn : String) : String :=
  "Solr host is \x27" ++ solrFqdn ++ "\x27 while local hostname is \x27" ++
    localFqdn ++ "\x27. Cannot use --commit-local!"

/-- The `try/except KeyError` block of `build_context` (lines 91-102): look
up `solr_info['lucene']['solr-spec-version']` (a `KeyError` becomes the
`CommandError`), split on dots and convert each piece with `int` (a failure
there is an uncaught `ValueError`), treat an empty component list as a
`KeyError` routed to the same `CommandError` (a dead guard: a split never
produces zero pieces), and right-pad with zeros to three components.  The
initial `solr_version = (1, 0, 0)` placeholder of the source is dead: it is
overwritten before any read on every path that does not raise. -/
def resolveVersion (specVersion : Option String) : Except Err (List Int) :=
  match specVersion with
  | none => .error (.configError versionMsg)
  | some version_str =>
    match parseInts (splitChar '.' version_str.data) with
    | none => .error .valueError
    | some l =>
      if l.length = 0 then .error (.configError versionMsg)
      else .ok (l ++ List.replicate (3 - l.length) 0)

/-- Lines 89-103 of `build_context`: resolve the version, then assemble the
context with the `'solr_%s' % solr_version[0]` shortcut key. -/
def build_context (info : SolrInfo) : Except Err RenderContext :=
  match resolveVersion info.specVersion with
  | .error e => .error e
  | .ok v => .ok { solr_version := v, version_shortcut := "solr_" ++ toString (v.headD 0) }

/-- Python `u.path.rstrip('/')`. -/
def pyRstripSlash (s : List Char) : List Char :=
  (s.reverse.dropWhile (fun a => a == '/')).reverse

/-- Python `s.rfind(c)`: highest index of `c`, or `-1` when absent. -/
def pyRfind (c : Char) : List Char → Int
  | [] => -1
  | x :: xs =>
    let r := pyRfind c xs
    if r ≥ 0 then r + 1
    else if x = c then 0 else -1

/-- Lines 76-79: `url_path = u.path.rstrip('/')`, `url_i =
url_path.rfind('/')`, `core_name = url_path[url_i+1:]`. -/
def coreNameChars (p : List Char) : List Char :=
  let stripped := pyRstripSlash p
  stripped.drop ((pyRfind '/' stripped) + 1).toNat

/-- `os.path.join(a, b)` for the relative literals used here: an absolute
`b` replaces `a`; otherwise a separator is inserted unless `a` is empty or
already ends with one. -/
def ospJoin (a b : String) : String :=
  if b.data.head? = some '/' then b
  else if a.data = [] then b
  else if a.data.getLast? = some '/' then a ++ b
  else a ++ "/" ++ b

/-- The commit branch reads `solr_info['core']['directory']['instance']` and
`solr_info['core']['host']` inside one `try`; any `KeyError` on those chains
yields the same `CommandError`. -/
def lookupCoreDirAndHost (info : SolrInfo) : Option (String × String) :=
  match info.core with
  | none => none
  | some c =>
    match c.instanceDir, c.host with
    | some d, some h => some (d, h)
    | _, _ => none

/-- Lines 64-87: the delivery part of `handle`, given the (override-patched)
`solr_info` and the rendered document.  The `--commit-local` branch is
checked first; otherwise a truthy (non-empty) `--filename` selects the file
branch; otherwise the document is printed to stdout.  File writes are
modelled as succeeding here; the failure behaviour of `write_file` itself is
modelled separately (see `write_file`). -/
def deliver (env : Env) (opts : Opts) (info : SolrInfo) (doc : String) :
    Except Err Unit × List Action :=
  if opts.commit = true then
    match lookupCoreDirAndHost info with
    | none => (.error (.configError dirMsg), [])
    | some (d, fq) =>
      if fq ≠ env.localFqdn then
        (.error (.configError (mismatchMsg fq env.localFqdn)), [])
      else
        (.ok (), [.fileWrite (ospJoin (ospJoin d "conf") "schema.xml") doc,
                  .reload (String.mk (coreNameChars env.connPath.data))])
  else
    match opts.filename with
    | some f =>
      if f ≠ "" then (.ok (), [.fileWrite f doc])
      else (.ok (), [.stdoutPrint doc])
    | none => (.ok (), [.stdoutPrint doc])

/-- `Command.handle`: check the backend class, introspect the server, patch
in the version override, render the schema (`build_template` =
`render(build_context(...))`), then deliver it.  Returns the outcome
together with the trace of observable actions. -/
def handle (env : Env) (opts : Opts) : Except Err Unit × List Action :=
  if env.backendIsSolr = false then (.error .improperlyConfigured, [])
  else
    match build_context (applyOverride (initialInfo env) opts.solr_version) with
    | .error e => (.error e, [])
    | .ok ctx =>
      deliver env opts (applyOverride (initialInfo env) opts.solr_version)
        (env.render ctx)

/-- State of the file handle opened by `write_file`. -/
structure FileHandleState where
  opened : Bool
  written : Bool
  closed : Bool
deriving DecidableEq, Repr

/-- Lines 134-137, `Command.write_file`: `open(filename, 'w')`, then
`schema_file.write(schema_xml)`, then `schema_file.close()` — plain
sequential statements with no `with`/`try..finally`.  `writeRaises` says
whether the `write` call raises; when it does, the exception propagates and
the `close()` line is never executed, leaving the handle open. -/
def write_file (writeRaises : Bool) : Except Err Unit × FileHandleState :=
  if writeRaises then
    (.error .ioError, { opened := true, written := false, closed := false })
  else
    (.ok (), { opened := true, written := true, closed := true })

/-- Spec-side notion: the numeric value denoted by a string of decimal
digits (most significant first). -/
def decVal (cs : List Char) : Nat :=
  Nat.ofDigits 10 ((cs.map (fun c => c.toNat - 48)).reverse)

/-- The suffix of `s` strictly after its last `'/'` (all of `s` when it has
none); this is what `s[s.rfind('/')+1:]` computes. -/
def afterLastSlash (s : List Char) : List Char :=
  (s.reverse.takeWhile (fun a => a != '/')).reverse

/-- Spec-side notion for claim C7: the last non-empty segment obtained by
splitting a URL path on `'/'`. -/
def lastNonEmptySegment (p : List Char) : Option (List Char) :=
  ((splitChar '/' p).filter (fun g => !g.isEmpty)).getLast?

/-- Append a character to the last group of a non-empty list of groups
(used to describe how `splitChar` reacts to appending a non-separator). -/
def snocLast (x : Char) : List (List Char) → List (List Char)
  | [] => [[x]]
  | [g] => [g ++ [x]]
  | g :: gs => g :: snocLast x gs

/-- Actions of `tr` that deliver the document (a file write or a stdout
print); the reload call is administrative, not a delivery. -/
def deliveryCount (tr : List Action) : Nat :=
  (tr.filter (fun a =>
    match a with
    | .fileWrite _ _ => true
    | .stdoutPrint _ => true
    | .reload _ => false)).length

/-- Fixture: a healthy local Solr server whose reported host matches the
local fqdn. -/
def envMatched : Env :=
  { backendIsSolr := true
    introspection := some
      { specVersion := some "8.1"
        core := some { instanceDir := some "/var/solr/core0", host := some "myhost" } }
    localFqdn := "myhost"
    connPath := "/solr/core0"
    render := fun _ => "<schema/>" }

/-- Fixture: same server but reporting a foreign host. -/
def envForeign : Env :=
  { envMatched with
    introspection := some
      { specVersion := some "8.1"
        core := some { instanceDir := some "/var/solr/core0", host := some "otherhost" } } }

/-- Fixture: introspection succeeded but carries no version entry. -/
def envNoVersion : Env :=
  { envMatched with introspection := some { specVersion := none, core := none } }

/-- Fixture: plain commit invocation. -/
def optsCommit : Opts := { filename := none, solr_version := none, commit := true }

/-- Fixture: commit and filename both set. -/
def optsBoth : Opts :=
  { filename := some "/tmp/out.xml", solr_version := none, commit := true }

/-- Fixture: no delivery option set at all. -/
def optsDefault : Opts := { filename := none, solr_version := none, commit := false }

/-! ### Helper lemmas about the character-level primitives -/

theorem dropWhile_eq_self_of_all {p : Char → Bool} {l : List Char}
    (h : ∀ a ∈ l, p a = false) : l.dropWhile p = l := by
  cases l with
  | nil => rfl
  | cons x xs => simp [List.dropWhile_cons, h x (List.mem_cons_self x xs)]

theorem isDigit_not_space {c : Char} (h : c.isDigit = true) : isPySpace c = false := by
  by_contra hs
  rw [Bool.not_eq_false] at hs
  simp only [isPySpace, Bool.or_eq_true, beq_iff_eq] at hs
  rcases hs with ((((h1 | h1) | h1) | h1) | h1) | h1 <;> subst h1 <;>
    exact absurd h (by decide)

theorem foldl_digits (ds : List Char) : ∀ init : Nat,
    ds.foldl (fun a c => 10 * a + (c.toNat - 48)) init
      = init * 10 ^ ds.length + decVal ds := by
  induction ds with
  | nil => intro init; simp [decVal]
  | cons d tl ih =>
    intro init
    have hx : decVal (d :: tl) = decVal tl + 10 ^ tl.length * (d.toNat - 48) := by
      simp [decVal, Nat.ofDigits_append]
    rw [List.foldl_cons, ih, hx, List.length_cons]
    ring

theorem digitsVal?_digits {cs : List Char} (h0 : cs ≠ [])
    (h : ∀ c ∈ cs, c.isDigit = true) : digitsVal? cs = some (decVal cs) := by
  unfold digitsVal?
  rw [if_neg, if_pos (List.all_eq_true.mpr h), foldl_digits]
  · simp
  · simp [List.isEmpty_iff, h0]

theorem pyInt?_digits {cs : List Char} (h0 : cs ≠ [])
    (h : ∀ c ∈ cs, c.isDigit = true) :
    pyInt? cs = some ((decVal cs : Nat) : Int) := by
  have hns : ∀ a ∈ cs, isPySpace a = false := fun a ha => isDigit_not_space (h a ha)
  have h1 : cs.dropWhile isPySpace = cs := dropWhile_eq_self_of_all hns
  have h2 : cs.reverse.dropWhile isPySpace = cs.reverse :=
    dropWhile_eq_self_of_all (fun a ha => hns a (List.mem_reverse.mp ha))
  unfold pyInt?
  rw [h1, h2, List.reverse_reverse]
  obtain ⟨x, xs, rfl⟩ : ∃ x xs, cs = x :: xs := by
    cases cs with
    | nil => exact absurd rfl h0
    | cons x xs => exact ⟨x, xs, rfl⟩
  have hx : x.isDigit = true := h x (List.mem_cons_self x xs)
  have hxp : x ≠ '+' := by rintro rfl; exact absurd hx (by decide)
  have hxm : x ≠ '-' := by rintro rfl; exact absurd hx (by decide)
  rw [pyIntCore, if_neg hxp, if_neg hxm, digitsVal?_digits h0 h]
  rfl

theorem splitChar_cons_self (c : Char) (l : List Char) :
    splitChar c (c :: l) = [] :: splitChar c l := by
  simp [splitChar]

theorem splitChar_cons_ne {c y : Char} (h : ¬y = c) (l : List Char) :
    splitChar c (y :: l) = consHead y (splitChar c l) := by
  simp [splitChar, h]

theorem splitChar_ne_nil (c : Char) (l : List Char) : splitChar c l ≠ [] := by
  induction l with
  | nil => simp [splitChar]
  | cons x xs ih =>
    by_cases hx : x = c
    · rw [hx, splitChar_cons_self]; simp
    · rw [splitChar_cons_ne hx]
      cases hsp : splitChar c xs with
      | nil => simp [consHead]
      | cons g gs => simp [consHead]

theorem splitChar_not_mem {c : Char} {l : List Char} (h : c ∉ l) :
    splitChar c l = [l] := by
  induction l with
  | nil => rfl
  | cons x xs ih =>
    have hx : ¬x = c := by rintro rfl; exact h (List.mem_cons_self x xs)
    have hxs : c ∉ xs := fun hm => h (List.mem_cons_of_mem x hm)
    rw [splitChar_cons_ne hx, ih hxs]
    rfl

theorem splitChar_append_sep {c : Char} {a : List Char} (r : List Char) (h : c ∉ a) :
    splitChar c (a ++ c :: r) = a :: splitChar c r := by
  induction a with
  | nil => rw [List.nil_append, splitChar_cons_self]
  | cons x xs ih =>
    have hx : ¬x = c := by rintro rfl; exact h (List.mem_cons_self x xs)
    have hxs : c ∉ xs := fun hm => h (List.mem_cons_of_mem x hm)
    rw [List.cons_append, splitChar_cons_ne hx, ih hxs]
    rfl

theorem not_dot_of_digits {a : List Char} (h : ∀ c ∈ a, c.isDigit = true) :
    ('.') ∉ a := by
  intro hm
  exact absurd (h _ hm) (by decide)

/-! ### Helper lemmas about `rstrip`/`rfind` and path segments -/

theorem takeWhile_eq_self_of_all {p : Char → Bool} {l : List Char}
    (h : ∀ a ∈ l, p a = true) : l.takeWhile p = l := by
  induction l with
  | nil => rfl
  | cons x xs ih =>
    rw [List.takeWhile_cons, if_pos (h x (List.mem_cons_self x xs)),
      ih (fun a ha => h a (List.mem_cons_of_mem x ha))]

theorem takeWhile_append_not {p : Char → Bool} {l : List Char} (r : List Char)
    (h : ∃ a ∈ l, p a = false) : (l ++ r).takeWhile p = l.takeWhile p := by
  induction l with
  | nil =>
    obtain ⟨a, ha, _⟩ := h
    exact absurd ha (List.not_mem_nil a)
  | cons x xs ih =>
    by_cases hx : p x = true
    · have hxs : ∃ a ∈ xs, p a = false := by
        obtain ⟨a, ha, hpa⟩ := h
        rcases List.mem_cons.mp ha with rfl | ha2
        · rw [hx] at hpa; cases hpa
        · exact ⟨a, ha2, hpa⟩
      simp [List.takeWhile_cons, hx, ih hxs]
    · have hx2 : p x = false := by revert hx; cases p x <;> simp
      simp [List.takeWhile_cons, hx2]

theorem takeWhile_append_stop {p : Char → Bool} {l : List Char} {b : Char} (r : List Char)
    (hall : ∀ a ∈ l, p a = true) (hb : p b = false) :
    (l ++ b :: r).takeWhile p = l := by
  induction l with
  | nil => simp [List.takeWhile_cons, hb]
  | cons x xs ih =>
    simp [List.takeWhile_cons, hall x (List.mem_cons_self x xs),
      ih (fun a ha => hall a (List.mem_cons_of_mem x ha))]

theorem pyRfind_nonneg_of_mem {c : Char} {l : List Char} (h : c ∈ l) :
    pyRfind c l ≥ 0 := by
  induction l with
  | nil => cases h
  | cons x xs ih =>
    simp only [pyRfind]
    by_cases hr : pyRfind c xs ≥ 0
    · rw [if_pos hr]; omega
    · rw [if_neg hr]
      rcases List.mem_cons.mp h with rfl | hm
      · rw [if_pos rfl]
      · exact absurd (ih hm) hr

theorem pyRfind_eq_neg_of_not_mem {c : Char} {l : List Char} (h : c ∉ l) :
    pyRfind c l = -1 := by
  induction l with
  | nil => rfl
  | cons x xs ih =>
    have hxs : c ∉ xs := fun hm => h (List.mem_cons_of_mem x hm)
    have hx : ¬x = c := by rintro rfl; exact h (List.mem_cons_self x xs)
    simp only [pyRfind, ih hxs]
    rw [if_neg (by omega), if_neg hx]

theorem drop_pyRfind (s : List Char) :
    s.drop ((pyRfind '/' s) + 1).toNat = afterLastSlash s := by
  induction s with
  | nil => rfl
  | cons x xs ih =>
    by_cases hm : ('/') ∈ xs
    · have hr : pyRfind '/' xs ≥ 0 := pyRfind_nonneg_of_mem hm
      have hex : ∃ a ∈ xs.reverse, (a != '/') = false :=
        ⟨'/', List.mem_reverse.mpr hm, by simp⟩
      simp only [pyRfind]
      rw [if_pos hr]
      have h2 : ((pyRfind '/' xs + 1) + 1).toNat = ((pyRfind '/' xs + 1).toNat) + 1 := by
        omega
      rw [h2, List.drop_succ_cons, ih]
      unfold afterLastSlash
      rw [List.reverse_cons, takeWhile_append_not [x] hex]
    · have hr : pyRfind '/' xs = -1 := pyRfind_eq_neg_of_not_mem hm
      have hall : ∀ a ∈ xs.reverse, (a != '/') = true := by
        intro a ha
        have hmem : a ∈ xs := List.mem_reverse.mp ha
        have hne : a ≠ '/' := by rintro rfl; exact hm hmem
        simp [hne]
      by_cases hx : x = '/'
      · subst hx
        have hv : pyRfind '/' ('/' :: xs) = 0 := by
          simp only [pyRfind, hr]
          norm_num
        rw [hv]
        unfold afterLastSlash
        rw [List.reverse_cons, takeWhile_append_stop [] hall (by simp),
          List.reverse_reverse]
        rfl
      · have hv : pyRfind '/' (x :: xs) = -1 := by
          simp only [pyRfind, hr]
          rw [if_neg (by omega), if_neg hx]
        rw [hv]
        unfold afterLastSlash
        rw [List.reverse_cons]
        have hallx : ∀ a ∈ xs.reverse ++ [x], (a != '/') = true := by
          intro a ha
          rcases List.mem_append.mp ha with h1 | h1
          · exact hall a h1
          · simp only [List.mem_singleton] at h1
            subst h1
            simp [hx]
        rw [takeWhile_eq_self_of_all hallx, List.reverse_append,
          List.reverse_reverse]
        rfl

theorem coreNameChars_eq_afterLast (p : List Char) :
    coreNameChars p = afterLastSlash (pyRstripSlash p) := by
  simp only [coreNameChars]
  exact drop_pyRfind (pyRstripSlash p)

theorem snocLast_concat (x : Char) (L0 : List (List Char)) (g : List Char) :
    snocLast x (L0 ++ [g]) = L0 ++ [g ++ [x]] := by
  induction L0 with
  | nil => rfl
  | cons a L ih =>
    cases L with
    | nil => rfl
    | cons b L2 =>
      show a :: snocLast x ((b :: L2) ++ [g]) = a :: ((b :: L2) ++ [g ++ [x]])
      rw [ih]

theorem snocLast_cons (x : Char) (A : List Char) {L : List (List Char)}
    (hL : L ≠ []) : snocLast x (A :: L) = A :: snocLast x L := by
  cases L with
  | nil => exact absurd rfl hL
  | cons g gs => rfl

theorem snocLast_consHead (x y : Char) {L : List (List Char)} (hL : L ≠ []) :
    snocLast x (consHead y L) = consHead y (snocLast x L) := by
  cases L with
  | nil => exact absurd rfl hL
  | cons g gs =>
    cases gs with
    | nil => rfl
    | cons k ks => rfl

theorem splitChar_append_sep_end (c : Char) (m : List Char) :
    splitChar c (m ++ [c]) = splitChar c m ++ [[]] := by
  induction m with
  | nil => rw [List.nil_append, splitChar_cons_self]; rfl
  | cons y m ih =>
    by_cases hy : y = c
    · rw [hy, List.cons_append, splitChar_cons_self, splitChar_cons_self, ih]
      rfl
    · rw [List.cons_append, splitChar_cons_ne hy, splitChar_cons_ne hy, ih]
      cases hsp : splitChar c m with
      | nil => exact absurd hsp (splitChar_ne_nil c m)
      | cons g gs => rfl

theorem splitChar_append_nonsep {c x : Char} (hx : x ≠ c) (m : List Char) :
    splitChar c (m ++ [x]) = snocLast x (splitChar c m) := by
  induction m with
  | nil =>
    rw [List.nil_append, splitChar_cons_ne hx]
    rfl
  | cons y m ih =>
    by_cases hy : y = c
    · rw [hy, List.cons_append, splitChar_cons_self, splitChar_cons_self, ih,
        snocLast_cons x [] (splitChar_ne_nil c m)]
    · rw [List.cons_append, splitChar_cons_ne hy, splitChar_cons_ne hy, ih,
        snocLast_consHead x y (splitChar_ne_nil c m)]

theorem afterLastSlash_append_nonsep {x : Char} (hx : x ≠ '/') (l : List Char) :
    afterLastSlash (l ++ [x]) = afterLastSlash l ++ [x] := by
  unfold afterLastSlash
  rw [List.reverse_append]
  simp [List.takeWhile_cons, hx]

theorem splitChar_getLast? (l : List Char) :
    (splitChar '/' l).getLast? = some (afterLastSlash l) := by
  induction l using List.reverseRecOn with
  | nil => rfl
  | append_singleton l x ih =>
    by_cases hx : x = '/'
    · subst hx
      rw [splitChar_append_sep_end, List.getLast?_concat]
      unfold afterLastSlash
      rw [List.reverse_append]
      simp [List.takeWhile_cons]
    · rw [splitChar_append_nonsep hx]
      rcases List.eq_nil_or_concat (splitChar '/' l) with h1 | ⟨L0, g, hL⟩
      · exact absurd h1 (splitChar_ne_nil '/' l)
      · rw [List.concat_eq_append] at hL
        have hg : g = afterLastSlash l := by
          have h2 := ih
          rw [hL, List.getLast?_concat] at h2
          exact Option.some.inj h2
        rw [hL, snocLast_concat, List.getLast?_concat, hg,
          afterLastSlash_append_nonsep hx]

theorem pyRstripSlash_append_slash (l : List Char) :
    pyRstripSlash (l ++ ['/']) = pyRstripSlash l := by
  unfold pyRstripSlash
  rw [List.reverse_append]
  simp [List.dropWhile_cons]

theorem pyRstripSlash_append_nonsep {x : Char} (hx : x ≠ '/') (l : List Char) :
    pyRstripSlash (l ++ [x]) = l ++ [x] := by
  unfold pyRstripSlash
  rw [List.reverse_append]
  simp [List.dropWhile_cons, hx]

theorem lastNonEmptySegment_eq (p : List Char) (h : ∃ a ∈ p, a ≠ '/') :
    lastNonEmptySegment p = some (afterLastSlash (pyRstripSlash p)) := by
  induction p using List.reverseRecOn with
  | nil =>
    obtain ⟨a, ha, _⟩ := h
    cases ha
  | append_singleton l x ih =>
    by_cases hx : x = '/'
    · subst hx
      have hl : ∃ a ∈ l, a ≠ '/' := by
        obtain ⟨a, ha, hne⟩ := h
        rcases List.mem_append.mp ha with h1 | h1
        · exact ⟨a, h1, hne⟩
        · simp only [List.mem_singleton] at h1
          subst h1
          exact absurd rfl hne
      have e1 : lastNonEmptySegment (l ++ ['/']) = lastNonEmptySegment l := by
        unfold lastNonEmptySegment
        rw [splitChar_append_sep_end, List.filter_append]
        simp [List.filter]
      rw [e1, ih hl, pyRstripSlash_append_slash]
    · have e2 : lastNonEmptySegment (l ++ [x]) = some (afterLastSlash l ++ [x]) := by
        unfold lastNonEmptySegment
        rw [splitChar_append_nonsep hx]
        rcases List.eq_nil_or_concat (splitChar '/' l) with h1 | ⟨L0, g, hL⟩
        · exact absurd h1 (splitChar_ne_nil '/' l)
        · rw [List.concat_eq_append] at hL
          have hg : g = afterLastSlash l := by
            have h2 := splitChar_getLast? l
            rw [hL, List.getLast?_concat] at h2
            exact Option.some.inj h2
          have hne : ((g ++ [x]).isEmpty) = false := by
            simp [List.isEmpty_iff]
          rw [hL, snocLast_concat, List.filter_append]
          simp [List.filter_cons, hne, hg]
      rw [e2, pyRstripSlash_append_nonsep hx, afterLastSlash_append_nonsep hx]

theorem lastNonEmptySegment_coreName (p : List Char) (h : ∃ a ∈ p, a ≠ '/') :
    lastNonEmptySegment p = some (coreNameChars p) := by
  rw [coreNameChars_eq_afterLast]
  exact lastNonEmptySegment_eq p h

/-! ### Evaluation equations for the command pipeline -/

theorem strData_append (a b : String) : (a ++ b).data = a.data ++ b.data := rfl

theorem resolveVersion_of_parse {s : String} {l : List Int}
    (h : parseInts (splitChar '.' s.data) = some l) (h0 : l ≠ []) :
    resolveVersion (some s) = .ok (l ++ List.replicate (3 - l.length) 0) := by
  simp only [resolveVersion, h]
  rw [if_neg (fun hh => h0 (List.length_eq_zero.mp hh))]

theorem build_context_of_resolve_ok {info : SolrInfo} {v : List Int}
    (h : resolveVersion info.specVersion = .ok v) :
    build_context info
      = .ok { solr_version := v, version_shortcut := "solr_" ++ toString (v.headD 0) } := by
  simp only [build_context, h]

theorem build_context_of_resolve_error {info : SolrInfo} {e : Err}
    (h : resolveVersion info.specVersion = .error e) :
    build_context info = .error e := by
  simp only [build_context, h]

theorem build_context_ok_inv {info : SolrInfo} {ctx : RenderContext}
    (h : build_context info = .ok ctx) :
    ∃ v, resolveVersion info.specVersion = .ok v ∧ ctx.solr_version = v := by
  unfold build_context at h
  cases hr : resolveVersion info.specVersion with
  | error e => rw [hr] at h; cases h
  | ok v =>
    rw [hr] at h
    injection h with h2
    subst h2
    exact ⟨v, rfl, rfl⟩

theorem handle_not_solr {env : Env} (opts : Opts)
    (hb : env.backendIsSolr = false) :
    handle env opts = (.error .improperlyConfigured, []) := by
  simp only [handle, hb]
  simp

theorem handle_ctx_error {env : Env} {opts : Opts} {e : Err}
    (hb : env.backendIsSolr = true)
    (hbc : build_context (applyOverride (initialInfo env) opts.solr_version)
      = .error e) :
    handle env opts = (.error e, []) := by
  simp only [handle, hb, hbc]
  simp

theorem handle_eq_deliver {env : Env} {opts : Opts} {ctx : RenderContext}
    (hb : env.backendIsSolr = true)
    (hbc : build_context (applyOverride (initialInfo env) opts.solr_version)
      = .ok ctx) :
    handle env opts
      = deliver env opts (applyOverride (initialInfo env) opts.solr_version)
          (env.render ctx) := by
  simp only [handle, hb, hbc]
  simp

theorem deliver_commit_nodir {env : Env} {opts : Opts} {info : SolrInfo}
    (hc : opts.commit = true) (hch : lookupCoreDirAndHost info = none)
    (doc : String) :
    deliver env opts info doc = (.error (.configError dirMsg), []) := by
  simp only [deliver, hc, hch]
  simp

theorem deliver_commit_mismatch {env : Env} {opts : Opts} {info : SolrInfo}
    {d fq : String} (hc : opts.commit = true)
    (hch : lookupCoreDirAndHost info = some (d, fq))
    (hne : fq ≠ env.localFqdn) (doc : String) :
    deliver env opts info doc
      = (.error (.configError (mismatchMsg fq env.localFqdn)), []) := by
  simp only [deliver, hc, hch]
  simp [hne]

theorem deliver_commit_matched {env : Env} {opts : Opts} {info : SolrInfo}
    {d fq : String} (hc : opts.commit = true)
    (hch : lookupCoreDirAndHost info = some (d, fq))
    (heq : fq = env.localFqdn) (doc : String) :
    deliver env opts info doc
      = (.ok (), [.fileWrite (ospJoin (ospJoin d "conf") "schema.xml") doc,
                  .reload (String.mk (coreNameChars env.connPath.data))]) := by
  simp only [deliver, hc, hch]
  simp [heq]

theorem deliver_filename {env : Env} {opts : Opts} {f : String}
    (info : SolrInfo) (hc : opts.commit = false)
    (hf : opts.filename = some f) (hne : f ≠ "") (doc : String) :
    deliver env opts info doc = (.ok (), [.fileWrite f doc]) := by
  simp only [deliver, hc, hf]
  simp [hne]

theorem deliver_filename_empty {env : Env} {opts : Opts}
    (info : SolrInfo) (hc : opts.commit = false)
    (hf : opts.filename = some "") (doc : String) :
    deliver env opts info doc = (.ok (), [.stdoutPrint doc]) := by
  simp only [deliver, hc, hf]
  simp

theorem deliver_stdout {env : Env} {opts : Opts}
    (info : SolrInfo) (hc : opts.commit = false)
    (hf : opts.filename = none) (doc : String) :
    deliver env opts info doc = (.ok (), [.stdoutPrint doc]) := by
  simp only [deliver, hc, hf]
  simp

theorem deliver_commit_ignores_filename {env : Env} {opts1 opts2 : Opts}
    (info : SolrInfo) (h1 : opts1.commit = true) (h2 : opts2.commit = true)
    (doc : String) :
    deliver env opts1 info doc = deliver env opts2 info doc := by
  simp only [deliver, h1, h2]
  simp

theorem ospJoin_schema_path {d : String} (hd0 : d.data ≠ [])
    (hd1 : d.data.getLast? ≠ some '/') :
    ospJoin (ospJoin d "conf") "schema.xml" = d ++ "/conf/schema.xml" := by
  have h1 : ospJoin d "conf" = d ++ "/" ++ "conf" := by
    unfold ospJoin
    rw [if_neg (by decide), if_neg hd0, if_neg hd1]
  have hdata : (d ++ "/" ++ "conf").data = d.data ++ ('/' :: "conf".data) := by
    rw [strData_append, strData_append, List.append_assoc]
    rfl
  have h2 : ospJoin (d ++ "/" ++ "conf") "schema.xml"
      = d ++ "/" ++ "conf" ++ "/" ++ "schema.xml" := by
    unfold ospJoin
    rw [if_neg (by decide),
      if_neg (show ¬((d ++ "/" ++ "conf").data = []) by rw [hdata]; simp),
      if_neg (show ¬((d ++ "/" ++ "conf").data.getLast? = some '/') by
        rw [hdata, List.getLast?_append_cons]; decide)]
  rw [h1, h2]
  apply String.ext
  simp only [strData_append, List.append_assoc]
  congr 1

/-! ### The claims -/

/-- Claim C1: a `--commit-local` invocation whose server-reported host
differs from the local machine fqdn fails with the host-mismatch
`CommandError` (the spec calls it `ConfigurationError`) and performs no
file write at all: the action trace is empty. -/
theorem commit_host_mismatch_fails_without_write (env : Env) (opts : Opts)
    (d fq : String) (ctx : RenderContext)
    (hb : env.backendIsSolr = true) (hc : opts.commit = true)
    (hctx : build_context (applyOverride (initialInfo env) opts.solr_version)
      = .ok ctx)
    (hch : lookupCoreDirAndHost (applyOverride (initialInfo env) opts.solr_version)
      = some (d, fq))
    (hne : fq ≠ env.localFqdn) :
    (handle env opts).1 = .error (.configError (mismatchMsg fq env.localFqdn)) ∧
      (handle env opts).2 = [] := by
  rw [handle_eq_deliver hb hctx, deliver_commit_mismatch hc hch hne]
  exact ⟨rfl, rfl⟩

/-- Witness for C1 at a concrete foreign-host environment. -/
theorem commit_host_mismatch_fails_without_write_w :
    (handle envForeign optsCommit).1
        = .error (.configError (mismatchMsg "otherhost" envForeign.localFqdn)) ∧
      (handle envForeign optsCommit).2 = [] :=
  commit_host_mismatch_fails_without_write envForeign optsCommit
    "/var/solr/core0" "otherhost"
    { solr_version := [8, 1, 0], version_shortcut := "solr_8" }
    rfl rfl rfl (by decide) (by decide)

/-- Claim C3: when introspection carries no version entry and no override
is given, version resolution fails with the `CommandError` (spec:
`ConfigurationError`) asking for an explicit `--solr-version`, and the
command neither renders nor performs any action. -/
theorem undeterminable_version_fails (env : Env) (opts : Opts)
    (hb : env.backendIsSolr = true)
    (hv : (initialInfo env).specVersion = none)
    (ho : opts.solr_version = none) :
    build_context (applyOverride (initialInfo env) opts.solr_version)
        = .error (.configError versionMsg) ∧
      (handle env opts).1 = .error (.configError versionMsg) ∧
      (handle env opts).2 = [] := by
  have ha : applyOverride (initialInfo env) opts.solr_version = initialInfo env := by
    rw [ho]
    rfl
  have hbc : build_context (applyOverride (initialInfo env) opts.solr_version)
      = .error (.configError versionMsg) := by
    rw [ha]
    apply build_context_of_resolve_error
    rw [hv]
    rfl
  rw [handle_ctx_error hb hbc]
  exact ⟨hbc, rfl, rfl⟩

/-- Witness for C3 at a concrete version-less environment. -/
theorem undeterminable_version_fails_w :
    build_context (applyOverride (initialInfo envNoVersion) optsDefault.solr_version)
        = .error (.configError versionMsg) ∧
      (handle envNoVersion optsDefault).1 = .error (.configError versionMsg) ∧
      (handle envNoVersion optsDefault).2 = [] :=
  undeterminable_version_fails envNoVersion optsDefault rfl rfl rfl

/-- Claim C4 counterexample: when the `write` call raises, `write_file`
never reaches its `close()` line — the handle stays open on that exit
path, so release is not guaranteed on every exit path. -/
theorem write_file_leaks_handle_on_write_failure :
    (write_file true).1 = .error .ioError ∧
      (write_file true).2.opened = true ∧
      (write_file true).2.closed = false :=
  ⟨rfl, rfl, rfl⟩

/-- Claim C4 amended: `write_file` closes the handle only on the successful
path; on a write failure the handle is left open, since the code uses plain
sequential `open`/`write`/`close` with no `with` or `try/finally`. -/
theorem write_file_closes_only_on_success :
    (write_file false).2.closed = true ∧ (write_file true).2.closed = false :=
  ⟨rfl, rfl⟩

/-- Claim C5 counterexample: the empty version string — the claim's own
example of a string with no components — fails with an uncaught
`ValueError` from `int('')`, not with the `CommandError` (spec:
`ConfigurationError`) used for an undeterminable version. -/
theorem empty_version_string_raises_valueError :
    resolveVersion (some "") = .error .valueError ∧
      build_context { specVersion := some "", core := none } = .error .valueError ∧
      Err.valueError ≠ Err.configError versionMsg :=
  ⟨rfl, rfl, by decide⟩

/-- Claim C5 amended: splitting on dots always yields at least one
component, so the zero-component guard is unreachable; the empty version
string yields one empty component whose `int` conversion fails with an
uncaught `ValueError` rather than the `ConfigurationError`. -/
theorem split_always_nonempty_empty_string_valueError :
    (∀ s : List Char, 1 ≤ (splitChar '.' s).length) ∧
      resolveVersion (some "") = .error .valueError := by
  refine ⟨?_, rfl⟩
  intro s
  cases h : splitChar '.' s with
  | nil => exact absurd h (splitChar_ne_nil '.' s)
  | cons g gs => simp

/-- Witness for the amended C5 on a concrete string. -/
theorem split_always_nonempty_empty_string_valueError_w :
    1 ≤ (splitChar '.' ("5.3".data)).length :=
  (split_always_nonempty_empty_string_valueError).1 "5.3".data

/-- Claim C6 counterexample: an override supplied as the empty string is
falsy in `if solr_version:` and is ignored — the introspected value is
kept and the resolved triple is parsed from it, not from the override
(whose own parse would be a `ValueError`). -/
theorem empty_override_is_ignored :
    applyOverride { specVersion := some "7.0.0", core := none } (some "")
        = { specVersion := some "7.0.0", core := none } ∧
      build_context
          (applyOverride { specVersion := some "7.0.0", core := none } (some ""))
        = .ok { solr_version := [7, 0, 0], version_shortcut := "solr_7" } ∧
      resolveVersion (some "") = .error .valueError :=
  ⟨rfl, rfl, rfl⟩

/-- Claim C6 amended: a supplied *non-empty* override string replaces any
introspected value before parsing, so resolution depends only on the
override. -/
theorem nonempty_override_replaces_before_parse (info : SolrInfo) (s : String)
    (hs : s ≠ "") :
    applyOverride info (some s) = { specVersion := some s, core := info.core } ∧
      build_context (applyOverride info (some s))
        = build_context { specVersion := some s, core := info.core } := by
  have h1 : applyOverride info (some s)
      = { specVersion := some s, core := info.core } := by
    simp only [applyOverride]
    rw [if_pos hs]
  exact ⟨h1, by rw [h1]⟩

/-- Witness for the amended C6 at a concrete override. -/
theorem nonempty_override_replaces_before_parse_w :
    applyOverride { specVersion := some "9.9", core := none } (some "5.3")
        = { specVersion := some "5.3", core := none } ∧
      build_context
          (applyOverride { specVersion := some "9.9", core := none } (some "5.3"))
        = build_context { specVersion := some "5.3", core := none } :=
  nonempty_override_replaces_before_parse
    { specVersion := some "9.9", core := none } "5.3" (by decide)

/-- Claim C2: for decimal version strings of the forms `M.m.p`, `M.m` and
`M` (each component a non-empty digit string), the resolver returns the
component values right-padded with zeros to a triple, and the
version-shortcut key is derived from the major component. -/
theorem version_resolver_pads_triple (co : Option CoreInfo) (a b c : List Char)
    (ha0 : a ≠ []) (had : ∀ ch ∈ a, ch.isDigit = true)
    (hb0 : b ≠ []) (hbd : ∀ ch ∈ b, ch.isDigit = true)
    (hc0 : c ≠ []) (hcd : ∀ ch ∈ c, ch.isDigit = true) :
    build_context
        { specVersion := some (String.mk (a ++ '.' :: (b ++ '.' :: c))), core := co }
        = .ok { solr_version := [(decVal a : Int), (decVal b : Int), (decVal c : Int)],
                version_shortcut := "solr_" ++ toString ((decVal a : Nat) : Int) } ∧
      build_context { specVersion := some (String.mk (a ++ '.' :: b)), core := co }
        = .ok { solr_version := [(decVal a : Int), (decVal b : Int), 0],
                version_shortcut := "solr_" ++ toString ((decVal a : Nat) : Int) } ∧
      build_context { specVersion := some (String.mk a), core := co }
        = .ok { solr_version := [(decVal a : Int), 0, 0],
                version_shortcut := "solr_" ++ toString ((decVal a : Nat) : Int) } := by
  have hadot := not_dot_of_digits had
  have hbdot := not_dot_of_digits hbd
  have hcdot := not_dot_of_digits hcd
  have hpa := pyInt?_digits ha0 had
  have hpb := pyInt?_digits hb0 hbd
  have hpc := pyInt?_digits hc0 hcd
  refine ⟨?_, ?_, ?_⟩
  · have hparse : parseInts (splitChar '.' (String.mk (a ++ '.' :: (b ++ '.' :: c))).data)
        = some [(decVal a : Int), (decVal b : Int), (decVal c : Int)] := by
      show parseInts (splitChar '.' (a ++ '.' :: (b ++ '.' :: c))) = _
      rw [splitChar_append_sep _ hadot, splitChar_append_sep _ hbdot,
        splitChar_not_mem hcdot]
      simp [parseInts, hpa, hpb, hpc]
    have hres2 : resolveVersion (some (String.mk (a ++ '.' :: (b ++ '.' :: c))))
        = .ok [(decVal a : Int), (decVal b : Int), (decVal c : Int)] := by
      rw [resolveVersion_of_parse hparse (by simp)]
      rfl
    rw [build_context_of_resolve_ok hres2]
    rfl
  · have hparse : parseInts (splitChar '.' (String.mk (a ++ '.' :: b)).data)
        = some [(decVal a : Int), (decVal b : Int)] := by
      show parseInts (splitChar '.' (a ++ '.' :: b)) = _
      rw [splitChar_append_sep _ hadot, splitChar_not_mem hbdot]
      simp [parseInts, hpa, hpb]
    have hres2 : resolveVersion (some (String.mk (a ++ '.' :: b)))
        = .ok [(decVal a : Int), (decVal b : Int), 0] := by
      rw [resolveVersion_of_parse hparse (by simp)]
      rfl
    rw [build_context_of_resolve_ok hres2]
    rfl
  · have hparse : parseInts (splitChar '.' (String.mk a).data)
        = some [(decVal a : Int)] := by
      show parseInts (splitChar '.' a) = _
      rw [splitChar_not_mem hadot]
      simp [parseInts, hpa]
    have hres2 : resolveVersion (some (String.mk a))
        = .ok [(decVal a : Int), 0, 0] := by
      rw [resolveVersion_of_parse hparse (by simp)]
      rfl
    rw [build_context_of_resolve_ok hres2]
    rfl

/-- Witness for C2: the spec example version string 5.3.1. -/
theorem version_resolver_pads_triple_w :
    build_context
        { specVersion := some (String.mk (['5'] ++ '.' :: (['3'] ++ '.' :: ['1']))),
          core := none }
        = .ok { solr_version :=
                  [(decVal ['5'] : Int), (decVal ['3'] : Int), (decVal ['1'] : Int)],
                version_shortcut := "solr_" ++ toString ((decVal ['5'] : Nat) : Int) } ∧
      build_context
          { specVersion := some (String.mk (['5'] ++ '.' :: ['3'])), core := none }
        = .ok { solr_version := [(decVal ['5'] : Int), (decVal ['3'] : Int), 0],
                version_shortcut := "solr_" ++ toString ((decVal ['5'] : Nat) : Int) } ∧
      build_context { specVersion := some (String.mk ['5']), core := none }
        = .ok { solr_version := [(decVal ['5'] : Int), 0, 0],
                version_shortcut := "solr_" ++ toString ((decVal ['5'] : Nat) : Int) } :=
  version_resolver_pads_triple none ['5'] ['3'] ['1']
    (by decide) (by decide) (by decide) (by decide) (by decide) (by decide)

/-- Claim C7: a matched-host `--commit-local` run writes the rendered
document to `instance_dir/conf/schema.xml` and afterwards reloads the core
whose name is the URL path suffix after the last slash — proven equal to
the last non-empty path segment — with the write strictly preceding the
reload in the action trace. -/
theorem commit_matched_writes_schema_then_reloads (env : Env) (opts : Opts)
    (d fq : String) (ctx : RenderContext)
    (hb : env.backendIsSolr = true) (hc : opts.commit = true)
    (hctx : build_context (applyOverride (initialInfo env) opts.solr_version)
      = .ok ctx)
    (hch : lookupCoreDirAndHost (applyOverride (initialInfo env) opts.solr_version)
      = some (d, fq))
    (hfq : fq = env.localFqdn)
    (hd0 : d.data ≠ []) (hd1 : d.data.getLast? ≠ some '/')
    (hp : ∃ a ∈ env.connPath.data, a ≠ '/') :
    (handle env opts).1 = .ok () ∧
      (handle env opts).2
        = [Action.fileWrite (d ++ "/conf/schema.xml") (env.render ctx),
           Action.reload (String.mk (coreNameChars env.connPath.data))] ∧
      lastNonEmptySegment env.connPath.data
        = some (coreNameChars env.connPath.data) := by
  rw [handle_eq_deliver hb hctx, deliver_commit_matched hc hch hfq,
    ospJoin_schema_path hd0 hd1]
  exact ⟨rfl, rfl, lastNonEmptySegment_coreName _ hp⟩

/-- Witness for C7 at a concrete matched-host environment. -/
theorem commit_matched_writes_schema_then_reloads_w :
    (handle envMatched optsCommit).1 = .ok () ∧
      (handle envMatched optsCommit).2
        = [Action.fileWrite ("/var/solr/core0" ++ "/conf/schema.xml")
             (envMatched.render { solr_version := [8, 1, 0], version_shortcut := "solr_8" }),
           Action.reload (String.mk (coreNameChars envMatched.connPath.data))] ∧
      lastNonEmptySegment envMatched.connPath.data
        = some (coreNameChars envMatched.connPath.data) :=
  commit_matched_writes_schema_then_reloads envMatched optsCommit
    "/var/solr/core0" "myhost"
    { solr_version := [8, 1, 0], version_shortcut := "solr_8" }
    rfl rfl rfl rfl rfl (by decide) (by decide) (by decide)

/-- Claim C8: the `(1,0,0)` placeholder can never reach the renderer —
whenever `build_context` succeeds, the context triple is the zero-padded
component list parsed from the actual version string present in
`solr_info` (introspected or overridden), never the unparsed default. -/
theorem placeholder_triple_never_rendered (info : SolrInfo) (ctx : RenderContext)
    (h : build_context info = .ok ctx) :
    ∃ s l, info.specVersion = some s ∧
      parseInts (splitChar '.' s.data) = some l ∧ l ≠ [] ∧
      ctx.solr_version = l ++ List.replicate (3 - l.length) 0 := by
  obtain ⟨v, hr, hv⟩ := build_context_ok_inv h
  cases hs : info.specVersion with
  | none =>
    rw [hs] at hr
    exact Except.noConfusion hr
  | some s =>
    rw [hs] at hr
    cases hp : parseInts (splitChar '.' s.data) with
    | none =>
      simp only [resolveVersion, hp] at hr
      exact Except.noConfusion hr
    | some l =>
      simp only [resolveVersion, hp] at hr
      by_cases h0 : l.length = 0
      · rw [if_pos h0] at hr
        exact Except.noConfusion hr
      · rw [if_neg h0] at hr
        injection hr with hr2
        exact ⟨s, l, rfl, hp, fun hnil => h0 (by rw [hnil]; rfl),
          by rw [hv, ← hr2]⟩

/-- Witness for C8 at a concrete successful resolution. -/
theorem placeholder_triple_never_rendered_w :
    ∃ s l, ({ specVersion := some "5.3", core := none } : SolrInfo).specVersion
        = some s ∧
      parseInts (splitChar '.' s.data) = some l ∧ l ≠ [] ∧
      ({ solr_version := [5, 3, 0], version_shortcut := "solr_5" } :
        RenderContext).solr_version = l ++ List.replicate (3 - l.length) 0 :=
  placeholder_triple_never_rendered { specVersion := some "5.3", core := none }
    { solr_version := [5, 3, 0], version_shortcut := "solr_5" } rfl

/-- Claim C9: every invocation performs at most one delivery action (file
write or stdout print), exactly one when the run succeeds, and printing to
stdout is the delivery when neither `--filename` nor `--commit-local` is
set. -/
theorem exactly_one_delivery_action (env : Env) (opts : Opts) :
    deliveryCount (handle env opts).2 ≤ 1 ∧
      ((handle env opts).1 = .ok () → deliveryCount (handle env opts).2 = 1) ∧
      (opts.commit = false → opts.filename = none →
        (handle env opts).1 = .ok () →
        ∃ doc, (handle env opts).2 = [Action.stdoutPrint doc]) := by
  by_cases hb : env.backendIsSolr = true
  · cases hbc : build_context (applyOverride (initialInfo env) opts.solr_version) with
    | error e =>
      rw [handle_ctx_error hb hbc]
      exact ⟨Nat.zero_le 1, fun h => Except.noConfusion h,
        fun _ _ h => Except.noConfusion h⟩
    | ok ctx =>
      rw [handle_eq_deliver hb hbc]
      by_cases hc : opts.commit = true
      · cases hch : lookupCoreDirAndHost (applyOverride (initialInfo env) opts.solr_version) with
        | none =>
          rw [deliver_commit_nodir hc hch]
          exact ⟨Nat.zero_le 1, fun h => Except.noConfusion h,
            fun h1 _ _ => by rw [h1] at hc; exact Bool.noConfusion hc⟩
        | some pr =>
          obtain ⟨d, fq⟩ := pr
          by_cases hfe : fq = env.localFqdn
          · rw [deliver_commit_matched hc hch hfe]
            exact ⟨Nat.le_refl 1, fun _ => rfl,
              fun h1 _ _ => by rw [h1] at hc; exact Bool.noConfusion hc⟩
          · rw [deliver_commit_mismatch hc hch hfe]
            exact ⟨Nat.zero_le 1, fun h => Except.noConfusion h,
              fun h1 _ _ => by rw [h1] at hc; exact Bool.noConfusion hc⟩
      · have hc2 : opts.commit = false := by
          revert hc; cases opts.commit <;> simp
        cases hf : opts.filename with
        | some f =>
          by_cases hfe : f = ""
          · subst hfe
            rw [deliver_filename_empty _ hc2 hf]
            exact ⟨Nat.le_refl 1, fun _ => rfl,
              fun _ _ _ => ⟨env.render ctx, rfl⟩⟩
          · rw [deliver_filename _ hc2 hf hfe]
            refine ⟨Nat.le_refl 1, fun _ => rfl, fun _ h2 _ => ?_⟩
            exact Option.noConfusion h2
        | none =>
          rw [deliver_stdout _ hc2 hf]
          exact ⟨Nat.le_refl 1, fun _ => rfl,
            fun _ _ _ => ⟨env.render ctx, rfl⟩⟩
  · have hb2 : env.backendIsSolr = false := by
      revert hb; cases env.backendIsSolr <;> simp
    rw [handle_not_solr opts hb2]
    exact ⟨Nat.zero_le 1, fun h => Except.noConfusion h,
      fun _ _ h => Except.noConfusion h⟩

/-- Witness for C9: the default invocation delivers exactly once, to
stdout. -/
theorem exactly_one_delivery_action_w :
    ∃ doc, (handle envMatched optsDefault).2 = [Action.stdoutPrint doc] :=
  (exactly_one_delivery_action envMatched optsDefault).2.2 rfl rfl rfl

/-- Claim C10: when both `--commit-local` and `--filename` are set, the
commit branch takes precedence: the run equals the one without the
filename option (the pair is not rejected as mutually exclusive), and the
file named by the filename option is never written, its path being
distinct from the schema path the commit branch writes. -/
theorem commit_takes_precedence_over_filename (env : Env) (opts : Opts)
    (f d fq : String)
    (hc : opts.commit = true) (hf : opts.filename = some f)
    (hch : lookupCoreDirAndHost (applyOverride (initialInfo env) opts.solr_version)
      = some (d, fq))
    (hne : f ≠ ospJoin (ospJoin d "conf") "schema.xml") :
    handle env opts = handle env { opts with filename := none } ∧
      (∀ doc, Action.fileWrite f doc ∉ (handle env opts).2) := by
  have hsame : handle env opts = handle env { opts with filename := none } := by
    by_cases hb : env.backendIsSolr = true
    · cases hbc : build_context (applyOverride (initialInfo env) opts.solr_version) with
      | error e =>
        rw [handle_ctx_error hb hbc,
          @handle_ctx_error env { opts with filename := none } e hb hbc]
      | ok ctx =>
        rw [handle_eq_deliver hb hbc,
          @handle_eq_deliver env { opts with filename := none } ctx hb hbc]
        exact @deliver_commit_ignores_filename env opts
          { opts with filename := none } _ hc hc _
    · have hb2 : env.backendIsSolr = false := by
        revert hb; cases env.backendIsSolr <;> simp
      rw [handle_not_solr opts hb2, handle_not_solr _ hb2]
  refine ⟨hsame, ?_⟩
  intro doc hmem
  by_cases hb : env.backendIsSolr = true
  · cases hbc : build_context (applyOverride (initialInfo env) opts.solr_version) with
    | error e =>
      rw [handle_ctx_error hb hbc] at hmem
      exact absurd hmem (List.not_mem_nil _)
    | ok ctx =>
      rw [handle_eq_deliver hb hbc] at hmem
      by_cases hfe : fq = env.localFqdn
      · rw [deliver_commit_matched hc hch hfe] at hmem
        rcases List.mem_cons.mp hmem with h1 | h1
        · injection h1 with h2 h3
          exact hne h2
        · rcases List.mem_cons.mp h1 with h2 | h2
          · exact Action.noConfusion h2
          · exact absurd h2 (List.not_mem_nil _)
      · rw [deliver_commit_mismatch hc hch hfe] at hmem
        exact absurd hmem (List.not_mem_nil _)
  · have hb2 : env.backendIsSolr = false := by
      revert hb; cases env.backendIsSolr <;> simp
    rw [handle_not_solr opts hb2] at hmem
    exact absurd hmem (List.not_mem_nil _)

/-- Witness for C10 with both options set concretely. -/
theorem commit_takes_precedence_over_filename_w :
    handle envMatched optsBoth
        = handle envMatched { optsBoth with filename := none } ∧
      (∀ doc, Action.fileWrite "/tmp/out.xml" doc ∉ (handle envMatched optsBoth).2) :=
  commit_takes_precedence_over_filename envMatched optsBoth "/tmp/out.xml"
    "/var/solr/core0" "myhost" rfl rfl rfl (by decide)

end BuildSolrSchema
